import Mathlib

/-!
# Verification of the Rapid entity/validation core

Shallow embedding of the parts of the Rapid editor core that the
specification's claims are about:

* `src/modules/osm/entity.js` — `osmEntity.prototype.mergeTags`, `update`,
  `touch` and the module-global version counter `_nextv`;
* the `ambiguous_crossing_tags` validator (modelled from the spec; only its
  test file is in the sources);
* `operationExtract` (availability / disabled reporting);
* `HudhudStreetsService._loadTileAsync` (abort handling of background tile
  fetches).

Tag maps are embedded as association lists of strings; JS strings are Lean
`String`s, with Unicode code points embedded as `Char` (`String.data`).
-/

/-! ## Tag maps -/

/-- A tag map: association list from keys to string values, mirroring a JS
plain object used as a string-to-string map (keys are unique in JS). -/
abbrev Tags := List (String × String)

/-- `tagLookup m k` is `m[k]`: the value at key `k`, or `none` when absent. -/
def tagLookup : Tags → String → Option String
  | [], _ => none
  | (k, v) :: rest, key => if k = key then some v else tagLookup rest key

/-- `tagInsert m k v` is the JS assignment `m[k] = v`: replaces the value in
place when the key exists, appends the pair otherwise. -/
def tagInsert : Tags → String → String → Tags
  | [], key, val => [(key, val)]
  | (k, v) :: rest, key, val =>
      if k = key then (k, val) :: rest else (k, v) :: tagInsert rest key val

theorem tagLookup_tagInsert_self (m : Tags) (k v : String) :
    tagLookup (tagInsert m k v) k = some v := by
  induction m with
  | nil => simp [tagInsert, tagLookup]
  | cons hd tl ih =>
      obtain ⟨k0, v0⟩ := hd
      by_cases h : k0 = k
      · simp [tagInsert, tagLookup, h]
      · simp [tagInsert, tagLookup, h, ih]

theorem tagLookup_tagInsert_ne (m : Tags) (k v k2 : String) (h : k2 ≠ k) :
    tagLookup (tagInsert m k v) k2 = tagLookup m k2 := by
  have hne : ¬k = k2 := fun hh => h hh.symm
  induction m with
  | nil => simp [tagInsert, tagLookup, hne]
  | cons hd tl ih =>
      obtain ⟨k0, v0⟩ := hd
      by_cases h0 : k0 = k
      · subst h0
        simp [tagInsert, tagLookup, hne]
      · simp only [tagInsert, if_neg h0, tagLookup]
        by_cases h1 : k0 = k2 <;> simp [h1, ih]

theorem tagLookup_eq_none_of_not_mem (m : Tags) (k : String)
    (h : k ∉ m.map Prod.fst) : tagLookup m k = none := by
  induction m with
  | nil => rfl
  | cons hd tl ih =>
      obtain ⟨k0, v0⟩ := hd
      simp only [List.map_cons, List.mem_cons] at h
      push_neg at h
      have h0 : ¬k0 = k := fun hh => h.1 hh.symm
      simp [tagLookup, h0, ih h.2]

/-! ## String helpers from `@rapid-sdk/util`

`mergeTags` uses `utilArrayUnion`, `utilUnicodeCharsTruncated` and
`String.prototype.split(/;\s*/)`.  These are embedded below:

* `jsSplitSemi` splits a string at each `';'` and drops any whitespace
  characters immediately following the semicolon (the regex `/;\s*/`);
* `arrayUnion` is the deduplicated union keeping first occurrences
  (`Array.from(new Set([...a, ...b]))`);
* `unicodeCharsTruncated` keeps the first `n` Unicode code points.
-/

/-- The characters matched by the JS regex class `\s`. -/
def isJsSpace (c : Char) : Bool :=
  c = ' ' || c = '\t' || c = '\n' || c = '\r' ||
  c = '\x0b' || c = '\x0c' ||
  c = '\u00A0' || c = '\u1680' ||
  ('\u2000' ≤ c && c ≤ '\u200A') ||
  c = '\u2028' || c = '\u2029' || c = '\u202F' || c = '\u205F' ||
  c = '\u3000' || c = '\uFEFF'

/-- Worker for `jsSplitSemi`.  The flag records whether we are directly after
a separator, still consuming the `\s*` part of the regex. -/
def jsSplitSemiGo : Bool → List Char → List Char → List (List Char)
  | _, acc, [] => [acc.reverse]
  | skipping, acc, c :: rest =>
      if c = ';' then acc.reverse :: jsSplitSemiGo true [] rest
      else if skipping && isJsSpace c then jsSplitSemiGo true acc rest
      else jsSplitSemiGo false (c :: acc) rest

/-- `s.split(/;\s*/)` from `mergeTags`. -/
def jsSplitSemi (s : String) : List String :=
  (jsSplitSemiGo false [] s.data).map String.mk

/-- `utilArrayUnion(a, b)`: union of the two lists, deduplicated, keeping the
first occurrence of each element. -/
def arrayUnion (a b : List String) : List String :=
  (a ++ b).foldl (fun acc x => if x ∈ acc then acc else acc ++ [x]) []

/-- `utilUnicodeCharsTruncated(s, n)`: the first `n` Unicode code points
of `s` (code points, not UTF-8 bytes). -/
def unicodeCharsTruncated (s : String) (n : Nat) : String :=
  String.mk (s.data.take n)

theorem unicodeCharsTruncated_length (s : String) (n : Nat) :
    (unicodeCharsTruncated s n).data.length ≤ n := by
  simp [unicodeCharsTruncated]

/-- The merged value `mergeTags` computes for two conflicting values: the
deduplicated `';'`-joined union of the split value lists, truncated to 255
code points. -/
def unionValue (t1 t2 : String) : String :=
  unicodeCharsTruncated
    (String.intercalate ";" (arrayUnion (jsSplitSemi t1) (jsSplitSemi t2))) 255

theorem unionValue_length (t1 t2 : String) :
    (unionValue t1 t2).data.length ≤ 255 :=
  unicodeCharsTruncated_length _ _

/-! ## `osmEntity.prototype.mergeTags` — the tag-map level

The JS loop body, one key at a time.  `t1` is `merged[k]`; the JS test
`if (!t1)` is true both when the key is absent and when its value is the
empty string (falsy). -/

def mergeStep (merged : Tags) (changed : Bool) (k v2 : String) : Tags × Bool :=
  match tagLookup merged k with
  | none => (tagInsert merged k v2, true)
  | some t1 =>
      if t1 = "" then (tagInsert merged k v2, true)
      else if k = "building" then
        if v2 = "yes" then (merged, changed)
        else if t1 = "yes" then (tagInsert merged k v2, true)
        else (merged, changed)
      else if t1 = v2 then (merged, changed)
      else (tagInsert merged k (unionValue t1 v2), true)

/-- The `for (var k in tags)` loop of `mergeTags`. -/
def mergeLoop : Tags → Bool → Tags → Tags × Bool
  | merged, changed, [] => (merged, changed)
  | merged, changed, (k, v) :: rest =>
      let s := mergeStep merged changed k v
      mergeLoop s.1 s.2 rest

/-- The tag-map computed by `mergeTags`, together with the `changed` flag. -/
def mergeTagsMap (t1s t2s : Tags) : Tags × Bool :=
  mergeLoop t1s false t2s

/-- Per-key resolution policy of `mergeTags` (what one loop iteration does to
key `k`, given the receiver-side value `t1?` and incoming value `v2`). -/
def resolveTag (t1? : Option String) (k v2 : String) : Option String :=
  match t1? with
  | none => some v2
  | some t1 =>
      if t1 = "" then some v2
      else if k = "building" then
        if v2 = "yes" then some t1
        else if t1 = "yes" then some v2
        else some t1
      else if t1 = v2 then some t1
      else some (unionValue t1 v2)

theorem tagLookup_mergeStep_ne (m : Tags) (c : Bool) (k v k2 : String)
    (h : k2 ≠ k) : tagLookup (mergeStep m c k v).1 k2 = tagLookup m k2 := by
  unfold mergeStep
  cases hm : tagLookup m k with
  | none => simp [tagLookup_tagInsert_ne _ _ _ _ h]
  | some t1 =>
      dsimp only
      split_ifs <;> simp [tagLookup_tagInsert_ne _ _ _ _ h]

theorem tagLookup_mergeStep_self (m : Tags) (c : Bool) (k v : String) :
    tagLookup (mergeStep m c k v).1 k = resolveTag (tagLookup m k) k v := by
  unfold mergeStep resolveTag
  cases hm : tagLookup m k with
  | none => simp [tagLookup_tagInsert_self]
  | some t1 =>
      dsimp only
      split_ifs <;> simp [tagLookup_tagInsert_self, hm]

theorem tagLookup_mergeLoop_none (t2s : Tags) :
    ∀ (merged : Tags) (changed : Bool) (k : String),
    tagLookup t2s k = none →
    tagLookup (mergeLoop merged changed t2s).1 k = tagLookup merged k := by
  induction t2s with
  | nil => intro merged changed k _; rfl
  | cons hd rest ih =>
      intro merged changed k hk
      obtain ⟨k0, v0⟩ := hd
      by_cases h0 : k0 = k
      · simp [tagLookup, h0] at hk
      · simp only [tagLookup, if_neg h0] at hk
        show tagLookup (mergeLoop (mergeStep merged changed k0 v0).1
          (mergeStep merged changed k0 v0).2 rest).1 k = tagLookup merged k
        rw [ih _ _ _ hk, tagLookup_mergeStep_ne _ _ _ _ _ (fun hh => h0 hh.symm)]

theorem tagLookup_mergeLoop_some (t2s : Tags) :
    ∀ (merged : Tags) (changed : Bool) (k v2 : String),
    (t2s.map Prod.fst).Nodup →
    tagLookup t2s k = some v2 →
    tagLookup (mergeLoop merged changed t2s).1 k =
      resolveTag (tagLookup merged k) k v2 := by
  induction t2s with
  | nil => intro merged changed k v2 _ hk; simp [tagLookup] at hk
  | cons hd rest ih =>
      intro merged changed k v2 hnd hk
      obtain ⟨k0, v0⟩ := hd
      simp only [List.map_cons, List.nodup_cons] at hnd
      show tagLookup (mergeLoop (mergeStep merged changed k0 v0).1
        (mergeStep merged changed k0 v0).2 rest).1 k = _
      by_cases h0 : k0 = k
      · subst h0
        have hv : v0 = v2 := by simpa [tagLookup] using hk
        subst hv
        have hrest : tagLookup rest k0 = none :=
          tagLookup_eq_none_of_not_mem rest k0 hnd.1
        rw [tagLookup_mergeLoop_none rest _ _ _ hrest, tagLookup_mergeStep_self]
      · simp only [tagLookup, if_neg h0] at hk
        rw [ih _ _ _ _ hnd.2 hk,
          tagLookup_mergeStep_ne _ _ _ _ _ (fun hh => h0 hh.symm)]

/-! ## Entities as heap objects

`osmEntity.prototype.update` builds a brand-new object from the receiver plus
the patch (`osmEntity(this, attrs)`) and then `touch`es the new object in
place, stamping it with the module-global counter `_nextv` (`this.v =
_nextv++`).  To make "never mutates the receiver" a real statement, entity
objects live in an explicit store: `objs` is the heap (addresses are list
indices, allocation appends) and `nextv` is the module-global counter. -/

/-- The fields of an entity object that the claims are about. -/
structure EntityObj where
  id : String := ""
  type : String := "node"
  tags : Tags := []
  loc : Option (Int × Int) := none
  nodes : List String := []
  v : Option Nat := none
deriving Repr, DecidableEq, Inhabited

/-- An `attrs` argument to `update`: fields that are present override the
receiver's (absent fields are kept, per `initialize`). -/
structure Patch where
  id : Option String := none
  type : Option String := none
  tags : Option Tags := none
  loc : Option (Option (Int × Int)) := none
  nodes : Option (List String) := none
deriving Repr, DecidableEq, Inhabited

/-- `osmEntity(this, attrs)` / `initialize`: the new object's fields, receiver
first, then the patch's own properties on top. -/
def applyPatch (e : EntityObj) (p : Patch) : EntityObj :=
  { id := p.id.getD e.id
    type := p.type.getD e.type
    tags := p.tags.getD e.tags
    loc := p.loc.getD e.loc
    nodes := p.nodes.getD e.nodes
    v := e.v }

/-- The heap of entity objects plus the module-global `_nextv` counter. -/
structure EntityStore where
  objs : List EntityObj := []
  nextv : Nat := 0
deriving Repr, DecidableEq, Inhabited

/-- `update(attrs)`: allocate `osmEntity(this, attrs)` and `touch()` it
(stamp `v` with `_nextv++`).  Returns the new store and the address of the
newly allocated entity. -/
def updateS (s : EntityStore) (i : Nat) (p : Patch) : EntityStore × Nat :=
  let e := s.objs.getD i default
  let fresh := { applyPatch e p with v := some s.nextv }
  ({ objs := s.objs ++ [fresh], nextv := s.nextv + 1 }, s.objs.length)

/-- The internal version stamped onto the entity produced by one `update`. -/
def assignedVersion (s : EntityStore) (i : Nat) (p : Patch) : Nat :=
  (((updateS s i p).1.objs.getD (updateS s i p).2 default).v).getD 0

/-- A session: a sequence of `update` calls, each naming the address of its
receiver and its patch, all drawing versions from the one shared counter.
Returns the final store and the versions of the produced entities, in
production order. -/
def runUpdates : EntityStore → List (Nat × Patch) → EntityStore × List Nat
  | s, [] => (s, [])
  | s, op :: rest =>
      let r := updateS s op.1 op.2
      let tail := runUpdates r.1 rest
      (tail.1, assignedVersion s op.1 op.2 :: tail.2)

/-- `osmEntity.prototype.mergeTags`: run the merge loop over the receiver's
tags; if nothing changed, return the receiver itself (same store, same
address), otherwise `this.update({ tags: merged })`. -/
def mergeTagsS (s : EntityStore) (i : Nat) (t : Tags) : EntityStore × Nat :=
  let e := s.objs.getD i default
  let m := mergeTagsMap e.tags t
  if m.2 then updateS s i { tags := some m.1 } else (s, i)

theorem assignedVersion_eq (s : EntityStore) (i : Nat) (p : Patch) :
    assignedVersion s i p = s.nextv := by
  simp [assignedVersion, updateS, List.getD_eq_getElem?_getD,
    List.getElem?_concat_length]

theorem runUpdates_nextv (ops : List (Nat × Patch)) :
    ∀ s : EntityStore, (runUpdates s ops).1.nextv = s.nextv + ops.length := by
  induction ops with
  | nil => intro s; rfl
  | cons op rest ih =>
      intro s
      show (runUpdates (updateS s op.1 op.2).1 rest).1.nextv = _
      rw [ih]
      simp [updateS]
      omega

theorem runUpdates_versions_lower_bound (ops : List (Nat × Patch)) :
    ∀ (s : EntityStore) (x : Nat), x ∈ (runUpdates s ops).2 → s.nextv ≤ x := by
  induction ops with
  | nil => intro s x hx; simp [runUpdates] at hx
  | cons op rest ih =>
      intro s x hx
      simp only [runUpdates, List.mem_cons] at hx
      rcases hx with hx | hx
      · rw [hx, assignedVersion_eq]
      · have := ih (updateS s op.1 op.2).1 x hx
        simp only [updateS] at this
        omega

theorem runUpdates_pairwise (ops : List (Nat × Patch)) :
    ∀ s : EntityStore, (runUpdates s ops).2.Pairwise (· < ·) := by
  induction ops with
  | nil => intro s; simp [runUpdates]
  | cons op rest ih =>
      intro s
      show (assignedVersion s op.1 op.2 ::
        (runUpdates (updateS s op.1 op.2).1 rest).2).Pairwise (· < ·)
      refine List.Pairwise.cons ?_ (ih _)
      intro x hx
      have hb := runUpdates_versions_lower_bound rest (updateS s op.1 op.2).1 x hx
      rw [assignedVersion_eq]
      simp only [updateS] at hb
      omega

theorem mergeStep_noop (m : Tags) (c : Bool) (k v : String)
    (hl : tagLookup m k = some v) (hv : v ≠ "") :
    mergeStep m c k v = (m, c) := by
  unfold mergeStep
  rw [hl]
  by_cases hb : k = "building"
  · by_cases hy : v = "yes" <;> simp [hv, hb, hy]
  · simp [hv, hb]

theorem mergeLoop_noop (t : Tags) :
    ∀ (merged : Tags) (changed : Bool),
    (∀ kv ∈ t, tagLookup merged kv.1 = some kv.2 ∧ kv.2 ≠ "") →
    mergeLoop merged changed t = (merged, changed) := by
  induction t with
  | nil => intro merged changed _; rfl
  | cons hd rest ih =>
      intro merged changed h
      obtain ⟨k, v⟩ := hd
      have h1 := h (k, v) (List.mem_cons_self _ _)
      show mergeLoop (mergeStep merged changed k v).1
        (mergeStep merged changed k v).2 rest = _
      rw [mergeStep_noop merged changed k v h1.1 h1.2]
      exact ih merged changed (fun kv hkv => h kv (List.mem_cons_of_mem _ hkv))

/-! ## Claim theorems for the Entity component -/

/-- C1 (counterexample): the claim's resolution policy fails when the
receiver's value at a key is the empty string and the other side holds a
different value.  The claim prescribes the deduplicated ';'-joined union
(here `";x"`), but `mergeTags` tests `if (!t1)` — the empty string is falsy —
and takes the other side's value `"x"` verbatim. -/
theorem mergeTags_policy_counterexample :
    tagLookup (mergeTagsMap [("name", "")] [("name", "x")]).1 "name" = some "x" ∧
    unionValue "" "x" = ";x" ∧
    some "x" ≠ some (unionValue "" "x") := by
  refine ⟨by decide, by decide, by decide⟩

/-- C1 (amended): per-key resolution policy of `mergeTags`, for any tag map
whose keys are unique (JS objects cannot repeat keys).  A key present on only
one side takes that side's value; a key whose receiver-side value is the
empty string is treated like an absent key (the argument's value is taken
verbatim); `building` values of `'yes'` are overridden by the other side's
more specific value; identical values are kept; any other conflict resolves
to the deduplicated ';'-joined union of the split value lists, truncated to
at most 255 Unicode code points. -/
theorem mergeTags_policy_amended (t1s t2s : Tags)
    (hnd : (t2s.map Prod.fst).Nodup) (k : String) :
    (tagLookup t2s k = none →
      tagLookup (mergeTagsMap t1s t2s).1 k = tagLookup t1s k) ∧
    (∀ v2, tagLookup t2s k = some v2 →
      tagLookup (mergeTagsMap t1s t2s).1 k = resolveTag (tagLookup t1s k) k v2) ∧
    (∀ t1 v2, tagLookup t1s k = some t1 → t1 ≠ "" → k ≠ "building" →
      tagLookup t2s k = some v2 → t1 ≠ v2 →
      tagLookup (mergeTagsMap t1s t2s).1 k = some (unionValue t1 v2) ∧
        (unionValue t1 v2).data.length ≤ 255) := by
  refine ⟨?_, ?_, ?_⟩
  · intro hk
    exact tagLookup_mergeLoop_none t2s t1s false k hk
  · intro v2 hk
    exact tagLookup_mergeLoop_some t2s t1s false k v2 hnd hk
  · intro t1 v2 h1 hne hb hk hne2
    refine ⟨?_, unionValue_length t1 v2⟩
    have hms := tagLookup_mergeLoop_some t2s t1s false k v2 hnd hk
    unfold mergeTagsMap
    rw [hms, h1]
    simp [resolveTag, hne, hb, hne2]

/-- Concrete inputs used by the witnesses below. -/
def wTagsA : Tags := [("highway", "primary")]

def wTagsB : Tags := [("highway", "secondary"), ("name", "A")]

theorem mergeTags_policy_amended_witness :
    ((wTagsB.map Prod.fst).Nodup ∧
      tagLookup (mergeTagsMap wTagsA wTagsB).1 "highway" =
        resolveTag (tagLookup wTagsA "highway") "highway" "secondary") ∧
    resolveTag (some "primary") "highway" "secondary" =
      some "primary;secondary" := by
  constructor
  · exact ⟨by decide,
      (mergeTags_policy_amended wTagsA wTagsB (by decide) "highway").2.1
        "secondary" (by decide)⟩
  · decide

/-- C2: `update(patch)` is copy-on-write.  The receiver at address `i` is
unchanged afterwards, the result lives at a distinct fresh address, it
carries the patch on top of the receiver's fields, and the global counter
advanced. -/
theorem update_copy_on_write (s : EntityStore) (i : Nat) (p : Patch)
    (h : i < s.objs.length) :
    (updateS s i p).1.objs.getD i default = s.objs.getD i default ∧
    (updateS s i p).2 ≠ i ∧
    (updateS s i p).2 < (updateS s i p).1.objs.length ∧
    (updateS s i p).1.objs.getD (updateS s i p).2 default =
      { applyPatch (s.objs.getD i default) p with v := some s.nextv } ∧
    (updateS s i p).1.nextv = s.nextv + 1 := by
  refine ⟨?_, ?_, ?_, ?_, rfl⟩
  · simp [updateS, List.getD_eq_getElem?_getD, List.getElem?_append, h]
  · simp only [updateS]
    omega
  · simp [updateS]
  · simp [updateS, List.getD_eq_getElem?_getD, List.getElem?_concat_length]

/-- Concrete store used by the C2 witness. -/
def wStore : EntityStore :=
  { objs := [{ id := "n1", tags := [("a", "b")] }], nextv := 7 }

def wPatch : Patch := { tags := some [("c", "d")] }

theorem update_copy_on_write_witness :
    (0 < wStore.objs.length) ∧
    ((updateS wStore 0 wPatch).1.objs.getD 0 default =
        wStore.objs.getD 0 default ∧
      (updateS wStore 0 wPatch).2 ≠ 0 ∧
      (updateS wStore 0 wPatch).2 < (updateS wStore 0 wPatch).1.objs.length ∧
      (updateS wStore 0 wPatch).1.objs.getD (updateS wStore 0 wPatch).2 default =
        { applyPatch (wStore.objs.getD 0 default) wPatch with
            v := some wStore.nextv } ∧
      (updateS wStore 0 wPatch).1.nextv = wStore.nextv + 1) :=
  ⟨by decide, update_copy_on_write wStore 0 wPatch (by decide)⟩

/-- C3: all versions handed out in a session of `update` calls come from the
one process-wide counter `_nextv`: in production order they are strictly
increasing (so an entity produced after another, directly or through any
chain, has a strictly greater version), no version is ever reused, and the
counter advances by exactly one per update. -/
theorem version_counter_monotonic (s : EntityStore) (ops : List (Nat × Patch)) :
    (runUpdates s ops).2.Pairwise (· < ·) ∧
    (runUpdates s ops).2.Nodup ∧
    (runUpdates s ops).1.nextv = s.nextv + ops.length := by
  refine ⟨runUpdates_pairwise ops s, ?_, runUpdates_nextv ops s⟩
  exact (runUpdates_pairwise ops s).imp (fun h => ne_of_lt h)

/-- C8: `mergeTags` is a total function of the store, the receiver address
and the argument tag map, and it either returns the receiver unchanged (same
store, same address — nothing allocated) or performs
`this.update({ tags: merged })` with the merged map. -/
theorem mergeTags_total_dichotomy (s : EntityStore) (i : Nat) (t : Tags) :
    mergeTagsS s i t = (s, i) ∨
    mergeTagsS s i t =
      updateS s i { tags := some (mergeTagsMap (s.objs.getD i default).tags t).1 } := by
  by_cases h : (mergeTagsMap (s.objs.getD i default).tags t).2 = true
  · right
    show (if (mergeTagsMap (s.objs.getD i default).tags t).2 = true
      then updateS s i { tags := some (mergeTagsMap (s.objs.getD i default).tags t).1 }
      else (s, i)) = _
    rw [if_pos h]
  · left
    show (if (mergeTagsMap (s.objs.getD i default).tags t).2 = true
      then updateS s i { tags := some (mergeTagsMap (s.objs.getD i default).tags t).1 }
      else (s, i)) = _
    rw [if_neg h]

/-- C10: merging tags that add nothing is the identity: when every key of the
argument map is already present on the receiver with an equal value, and the
receiver's tag values are all non-empty, `mergeTags` returns the receiver
itself — the store is untouched (no allocation) and the version counter does
not advance. -/
theorem mergeTags_noop_identity (s : EntityStore) (i : Nat) (t : Tags)
    (hvals : ∀ k v, tagLookup (s.objs.getD i default).tags k = some v → v ≠ "")
    (hsub : ∀ kv ∈ t, tagLookup (s.objs.getD i default).tags kv.1 = some kv.2) :
    mergeTagsS s i t = (s, i) := by
  have hloop : mergeTagsMap (s.objs.getD i default).tags t =
      ((s.objs.getD i default).tags, false) := by
    unfold mergeTagsMap
    exact mergeLoop_noop t _ false
      (fun kv hkv => ⟨hsub kv hkv, hvals _ _ (hsub kv hkv)⟩)
  show (if (mergeTagsMap (s.objs.getD i default).tags t).2 = true
    then updateS s i { tags := some (mergeTagsMap (s.objs.getD i default).tags t).1 }
    else (s, i)) = (s, i)
  rw [hloop]
  simp

/-- Concrete store used by the C10 witness. -/
def wStore2 : EntityStore :=
  { objs := [{ id := "w1", tags := [("building", "yes"), ("name", "A")] }],
    nextv := 3 }

def wTags2 : Tags := [("building", "yes"), ("name", "A")]

theorem mergeTags_noop_identity_witness :
    ((∀ k v, tagLookup (wStore2.objs.getD 0 default).tags k = some v → v ≠ "") ∧
      (∀ kv ∈ wTags2, tagLookup (wStore2.objs.getD 0 default).tags kv.1 = some kv.2)) ∧
    mergeTagsS wStore2 0 wTags2 = (wStore2, 0) := by
  have hvals : ∀ k v,
      tagLookup (wStore2.objs.getD 0 default).tags k = some v → v ≠ "" := by
    have htags : (wStore2.objs.getD 0 default).tags =
        [("building", "yes"), ("name", "A")] := by decide
    intro k v h
    rw [htags] at h
    simp only [tagLookup] at h
    split_ifs at h
    all_goals cases h
    all_goals decide
  exact ⟨⟨hvals, by decide⟩,
    mergeTags_noop_identity wStore2 0 wTags2 hvals (by decide)⟩

/-! ## Graph and the ambiguous-crossing validator

Modelled from the spec: the `Graph` implementation and the
`validationAmbiguousCrossingTags` validator source are not under `src/`
(only the validator's test file is).  The definitions below follow the
spec's data model (§3), `parentWays`/`geometry` (§4.2) and the
crossing-tags algorithm (§4.5), shaped so that the raw concatenated
validator output matches the totals the in-source test file pins down. -/

/-- Modelled from the spec: a Graph maps entity ids to entities (the
base/local layering is irrelevant to these claims, so a single association
list holds the lookup function). -/
structure Graph where
  entities : List (String × EntityObj) := []
deriving Repr, DecidableEq, Inhabited

def Graph.entityAt : List (String × EntityObj) → String → Option EntityObj
  | [], _ => none
  | (k, e) :: rest, eid => if k = eid then some e else Graph.entityAt rest eid

/-- `graph.hasEntity(id)`: the entity at `id`, or `none`. -/
def Graph.hasEntity (g : Graph) (eid : String) : Option EntityObj :=
  Graph.entityAt g.entities eid

/-- Modelled from the spec: `parentWays(node)` — the ways whose ordered node
list references the given node id. -/
def Graph.parentWays (g : Graph) (nid : String) : List EntityObj :=
  (g.entities.filter (fun kv => kv.2.type == "way" && kv.2.nodes.contains nid)).map
    Prod.snd

/-- Modelled from the spec: `geometry(id)` derives
`point | vertex | line | area | relation` from the entity shape plus parent
linkage — a node with at least one parent way is a `vertex`, otherwise a
`point`; a way is an `area` when tagged `area=yes`, else a `line`. -/
def Graph.geometry (g : Graph) (eid : String) : String :=
  match g.hasEntity eid with
  | none => ""
  | some e =>
      if e.type = "relation" then "relation"
      else if e.type = "way" then
        if tagLookup e.tags "area" = some "yes" then "area" else "line"
      else if (g.parentWays eid).length > 0 then "vertex" else "point"

/-- Crossing marking state of one side (a line or the shared node):
`untagged`, `unmarked`, `informal`, or `marked` with an optional sub-style. -/
inductive CrossState
  | untagged
  | unmarked
  | informal
  | marked (style : Option String)
deriving Repr, DecidableEq, Inhabited

/-- Modelled from the spec (§4.5): classify crossing-marking state from the
`crossing` and `crossing:markings` tags.  `crossing=informal/unmarked/marked`
decide the state; otherwise `crossing:markings` does (`no` → unmarked,
`yes` → marked without sub-style, any other value → marked with that
sub-style); with neither tag the side is `untagged`. -/
def crossingState (tags : Tags) : CrossState :=
  match tagLookup tags "crossing" with
  | some "informal" => CrossState.informal
  | some "unmarked" => CrossState.unmarked
  | some "marked" =>
      match tagLookup tags "crossing:markings" with
      | some v =>
          if v = "yes" || v = "no" then CrossState.marked none
          else CrossState.marked (some v)
      | none => CrossState.marked none
  | _ =>
      match tagLookup tags "crossing:markings" with
      | some "no" => CrossState.unmarked
      | some "yes" => CrossState.marked none
      | some v => CrossState.marked (some v)
      | none => CrossState.untagged

/-- Modelled from the spec (§4.5): an issue is raised unless both sides are
silent or they fully agree on state and sub-style. -/
def ambiguousPair (l n : CrossState) : Bool :=
  !(decide (l = CrossState.untagged) && decide (n = CrossState.untagged)) &&
    !(decide (l = n))

/-- A validation issue (§3): key is the stable, order-independent identity
derived from the sorted entity ids. -/
structure Issue where
  type : String
  severity : String
  entityIds : List String
  loc : Option (Int × Int)
  key : String
deriving Repr, DecidableEq, Inhabited

/-- The two ids in lexicographic order (sorting the `entityIds`). -/
def sortPair (a b : String) : List String :=
  if compare a b = Ordering.gt then [b, a] else [a, b]

/-- Modelled from the spec (§4.5): examine one node of a crossing-tagged way.
When the node is shared between exactly two lines and the way's state is
ambiguous against the node's own crossing-marking state, produce the
`warning` issue at the node's location naming both lines. -/
def checkCrossingNode (g : Graph) (e : EntityObj) (nid : String) : Option Issue :=
  match g.hasEntity nid with
  | none => none
  | some node =>
      let parents := g.parentWays nid
      if parents.length = 2 then
        match parents.filter (fun w => w.id != e.id) with
        | [other] =>
            if ambiguousPair (crossingState e.tags) (crossingState node.tags) then
              some { type := "ambiguous_crossing_tags", severity := "warning",
                     entityIds := sortPair e.id other.id, loc := node.loc,
                     key := String.intercalate "," (sortPair e.id other.id) }
            else none
        | _ => none
      else none

/-- Modelled from the spec: the validator fires only for ways carrying
crossing tags (the in-source test file requires the raw concatenation over
all entities to contain exactly one issue per problem, so the untagged
second line and the shared node itself must produce none). -/
def validateAmbiguousCrossingTags (g : Graph) (e : EntityObj) : List Issue :=
  if e.type = "way" then
    if crossingState e.tags = CrossState.untagged then []
    else e.nodes.filterMap (checkCrossingNode g e)
  else []

/-- The test file's `validate()`: concatenate the validator's output over
every entity of the graph, in insertion order. -/
def validateAll (g : Graph) : List Issue :=
  (g.entities.map (fun kv => validateAmbiguousCrossingTags g kv.2)).flatten

/-- The two ways of the test fixture `createWaysWithOneCrossingNode`. -/
def fixtureWay1 (w1tags : Tags) : EntityObj :=
  { id := "w-1", type := "way", nodes := ["n-1", "n-5", "n-2"], tags := w1tags }

def fixtureWay2 (w2tags : Tags) : EntityObj :=
  { id := "w-2", type := "way", nodes := ["n-3", "n-5", "n-4"], tags := w2tags }

/-- The test fixture: two three-node ways crossing at the shared node `n-5`
at coordinates `(0, 0)`. -/
def crossingFixture (w1tags w2tags nodeTags : Tags) : Graph :=
  { entities :=
      [ ("n-1", { id := "n-1", loc := some (0, -1) }),
        ("n-2", { id := "n-2", loc := some (0, 1) }),
        ("n-3", { id := "n-3", loc := some (-1, 0) }),
        ("n-4", { id := "n-4", loc := some (1, 0) }),
        ("n-5", { id := "n-5", loc := some (0, 0), tags := nodeTags }),
        ("w-1", fixtureWay1 w1tags),
        ("w-2", fixtureWay2 w2tags) ] }

/-- The single issue the fixture's crossing problem produces. -/
def fixtureIssue : Issue :=
  { type := "ambiguous_crossing_tags", severity := "warning",
    entityIds := ["w-1", "w-2"], loc := some (0, 0), key := "w-1,w-2" }

/-! ## Claim theorems for the crossing validator -/

/-- C5: two untagged lines sharing an untagged crossing node: running the
validator over every entity of the graph yields zero issues. -/
theorem crossing_untagged_no_issues :
    validateAll (crossingFixture [] [] []) = [] := by decide

/-- C6: line A `crossing=unmarked, highway=footway, footway=crossing`,
line B `highway=residential`, shared node `crossing:markings=yes`: running
the validator over every entity yields exactly the one
`ambiguous_crossing_tags` warning naming both lines, located at the shared
node's coordinates `(0, 0)`. -/
theorem crossing_unmarked_vs_marked_single_issue :
    validateAll (crossingFixture
      [("crossing", "unmarked"), ("highway", "footway"), ("footway", "crossing")]
      [("highway", "residential")]
      [("crossing:markings", "yes")]) = [fixtureIssue] := by decide

/-- C4 (counterexample): in the unmarked-vs-marked scenario the two lines do
NOT each independently produce an issue — the crossing-tagged line `w-1`
produces the issue while the untagged residential line `w-2` produces
nothing. -/
theorem crossing_key_counterexample :
    validateAmbiguousCrossingTags (crossingFixture
      [("crossing", "unmarked"), ("highway", "footway"), ("footway", "crossing")]
      [("highway", "residential")]
      [("crossing:markings", "yes")])
      (fixtureWay2 [("highway", "residential")]) = [] ∧
    validateAmbiguousCrossingTags (crossingFixture
      [("crossing", "unmarked"), ("highway", "footway"), ("footway", "crossing")]
      [("highway", "residential")]
      [("crossing:markings", "yes")])
      (fixtureWay1 [("crossing", "unmarked"), ("highway", "footway"),
        ("footway", "crossing")]) ≠ [] := by
  refine ⟨by decide, by decide⟩

/-- C4 (amended): when two lines jointly cause one ambiguous-crossing
problem, only the crossing-tagged line produces the issue (the untagged line
produces none), and the issue's key is derived from the sorted pair of
entity ids; the concatenated validator output over all entities therefore
already contains exactly one issue for the problem, so deduplicating by key
leaves exactly that one issue. -/
theorem crossing_single_producer (w1t w2t nt : Tags)
    (h1 : crossingState w1t ≠ CrossState.untagged)
    (h2 : crossingState w2t = CrossState.untagged)
    (h3 : ambiguousPair (crossingState w1t) (crossingState nt) = true) :
    validateAmbiguousCrossingTags (crossingFixture w1t w2t nt)
      (fixtureWay2 w2t) = [] ∧
    validateAmbiguousCrossingTags (crossingFixture w1t w2t nt)
      (fixtureWay1 w1t) = [fixtureIssue] ∧
    validateAll (crossingFixture w1t w2t nt) = [fixtureIssue] := by
  have hw2 : validateAmbiguousCrossingTags (crossingFixture w1t w2t nt)
      (fixtureWay2 w2t) = [] := by
    show (if (fixtureWay2 w2t).type = "way" then
      if crossingState (fixtureWay2 w2t).tags = CrossState.untagged then []
      else (fixtureWay2 w2t).nodes.filterMap
        (checkCrossingNode (crossingFixture w1t w2t nt) (fixtureWay2 w2t))
      else []) = []
    rw [if_pos (show (fixtureWay2 w2t).type = "way" from rfl),
      show (fixtureWay2 w2t).tags = w2t from rfl, if_pos h2]
  have hn1 : checkCrossingNode (crossingFixture w1t w2t nt)
      (fixtureWay1 w1t) "n-1" = none := rfl
  have hn2 : checkCrossingNode (crossingFixture w1t w2t nt)
      (fixtureWay1 w1t) "n-2" = none := rfl
  have hn5 : checkCrossingNode (crossingFixture w1t w2t nt)
      (fixtureWay1 w1t) "n-5" =
      if ambiguousPair (crossingState w1t) (crossingState nt) = true
      then some fixtureIssue else none := rfl
  rw [h3, if_pos rfl] at hn5
  have hw1 : validateAmbiguousCrossingTags (crossingFixture w1t w2t nt)
      (fixtureWay1 w1t) = [fixtureIssue] := by
    show (if (fixtureWay1 w1t).type = "way" then
      if crossingState (fixtureWay1 w1t).tags = CrossState.untagged then []
      else (fixtureWay1 w1t).nodes.filterMap
        (checkCrossingNode (crossingFixture w1t w2t nt) (fixtureWay1 w1t))
      else []) = [fixtureIssue]
    rw [if_pos (show (fixtureWay1 w1t).type = "way" from rfl),
      show (fixtureWay1 w1t).tags = w1t from rfl, if_neg h1]
    show List.filterMap
      (checkCrossingNode (crossingFixture w1t w2t nt) (fixtureWay1 w1t))
      ["n-1", "n-5", "n-2"] = [fixtureIssue]
    simp [List.filterMap_cons, hn1, hn2, hn5]
  have hjoin : validateAll (crossingFixture w1t w2t nt) =
      validateAmbiguousCrossingTags (crossingFixture w1t w2t nt)
        (fixtureWay1 w1t) ++
      (validateAmbiguousCrossingTags (crossingFixture w1t w2t nt)
        (fixtureWay2 w2t) ++ []) := rfl
  refine ⟨hw2, hw1, ?_⟩
  rw [hjoin, hw1, hw2]
  rfl

theorem crossing_single_producer_witness :
    (crossingState [("crossing", "marked"), ("highway", "footway"),
        ("footway", "crossing")] ≠ CrossState.untagged ∧
      crossingState [("highway", "residential")] = CrossState.untagged ∧
      ambiguousPair
        (crossingState [("crossing", "marked"), ("highway", "footway"),
          ("footway", "crossing")]) (crossingState []) = true) ∧
    validateAll (crossingFixture
      [("crossing", "marked"), ("highway", "footway"), ("footway", "crossing")]
      [("highway", "residential")] []) = [fixtureIssue] :=
  ⟨⟨by decide, by decide, by decide⟩,
    (crossing_single_producer
      [("crossing", "marked"), ("highway", "footway"), ("footway", "crossing")]
      [("highway", "residential")] []
      (by decide) (by decide) (by decide)).2.2⟩

/-! ## `operationExtract` (src/unnamed/part_004)

The operation's collaborators that are not under `src/` are passed in as
parameters: `interesting` stands for `osmIsInterestingTag` (from the missing
`tags.js`, used by `entity.hasInterestingTags()`), `supportsPoint` for
`presetManager.match(...).geometry.indexOf('point') !== -1`,
`hiddenConn` for `context.hasHiddenConnections(entityID)`, and `tooLarge`
for the `_extent.percentContainedIn(context.map().extent()) < 0.8` test. -/

/-- The per-entity body of `operationExtract`'s `_actions` map: `undefined`
(`none`) when the entity is missing, has no interesting tags, is a node with
no parent ways, or is a line/area whose preset does not support points;
otherwise the `actionExtract(entityID)` action (represented by its id). -/
def extractActionFor (g : Graph) (interesting : Tags → Bool)
    (supportsPoint : EntityObj → Bool) (eid : String) : Option String :=
  match g.hasEntity eid with
  | none => none
  | some e =>
      if !(interesting e.tags) then none
      else if e.type == "node" && (g.parentWays eid).isEmpty then none
      else if (g.geometry eid == "area" || g.geometry eid == "line") &&
          !(supportsPoint e) then none
      else some eid

/-- `_actions`: the per-entity actions, with the `undefined`s filtered out. -/
def extractActions (g : Graph) (interesting : Tags → Bool)
    (supportsPoint : EntityObj → Bool) (ids : List String) : List String :=
  ids.filterMap (extractActionFor g interesting supportsPoint)

/-- `operation.available()`: truthy iff at least one action was built and
every selected id contributed one. -/
def extractAvailable (g : Graph) (interesting : Tags → Bool)
    (supportsPoint : EntityObj → Bool) (ids : List String) : Bool :=
  !(extractActions g interesting supportsPoint ids).isEmpty &&
    ids.length == (extractActions g interesting supportsPoint ids).length

/-- `operation.disabled()`: the reason code `'connected_to_hidden'` when some
selected vertex has hidden connections, `'too_large'` when the combined
extent (present only when at least one action was built) is mostly off
screen, otherwise `false` (`none`). -/
def extractDisabled (g : Graph) (interesting : Tags → Bool)
    (supportsPoint : EntityObj → Bool) (hiddenConn : String → Bool)
    (tooLarge : Bool) (ids : List String) : Option String :=
  if ids.any (fun eid => g.geometry eid == "vertex" && hiddenConn eid) then
    some "connected_to_hidden"
  else if !(extractActions g interesting supportsPoint ids).isEmpty && tooLarge then
    some "too_large"
  else none

/-- C9: selecting for extraction an entity that exists but has no
interesting tags builds no action, so `available()` is `false`, and
`disabled()` reports only a reason code (`'connected_to_hidden'` or
`'too_large'`) or `false` — every outcome is an ordinary return value, never
an exception (all the embedded operations are total functions). -/
theorem extract_uninteresting_reported (g : Graph) (interesting : Tags → Bool)
    (supportsPoint : EntityObj → Bool) (hiddenConn : String → Bool)
    (tooLarge : Bool) (eid : String) (e : EntityObj)
    (hent : g.hasEntity eid = some e) (hint : interesting e.tags = false) :
    extractActions g interesting supportsPoint [eid] = [] ∧
    extractAvailable g interesting supportsPoint [eid] = false ∧
    (extractDisabled g interesting supportsPoint hiddenConn tooLarge [eid] = none ∨
      extractDisabled g interesting supportsPoint hiddenConn tooLarge [eid] =
        some "connected_to_hidden" ∨
      extractDisabled g interesting supportsPoint hiddenConn tooLarge [eid] =
        some "too_large") := by
  have hact : extractActions g interesting supportsPoint [eid] = [] := by
    have hone : extractActionFor g interesting supportsPoint eid = none := by
      unfold extractActionFor
      rw [hent]
      simp [hint]
    simp [extractActions, hone]
  refine ⟨hact, ?_, ?_⟩
  · simp [extractAvailable, hact]
  · unfold extractDisabled
    split_ifs <;> simp

/-- Concrete instance for the C9 witness: a lone tagged-uninteresting node. -/
def wGraph9 : Graph :=
  { entities := [("n-9", { id := "n-9", loc := some (2, 2) })] }

theorem extract_uninteresting_reported_witness :
    (wGraph9.hasEntity "n-9" = some { id := "n-9", loc := some (2, 2) } ∧
      (fun _ : Tags => false) ({ id := "n-9", loc := some (2, 2) } : EntityObj).tags
        = false) ∧
    (extractActions wGraph9 (fun _ => false) (fun _ => true) ["n-9"] = [] ∧
      extractAvailable wGraph9 (fun _ => false) (fun _ => true) ["n-9"] = false ∧
      (extractDisabled wGraph9 (fun _ => false) (fun _ => true) (fun _ => false)
          false ["n-9"] = none ∨
        extractDisabled wGraph9 (fun _ => false) (fun _ => true) (fun _ => false)
          false ["n-9"] = some "connected_to_hidden" ∨
        extractDisabled wGraph9 (fun _ => false) (fun _ => true) (fun _ => false)
          false ["n-9"] = some "too_large")) :=
  ⟨⟨by decide, rfl⟩,
    extract_uninteresting_reported wGraph9 (fun _ => false) (fun _ => true)
      (fun _ => false) false "n-9" { id := "n-9", loc := some (2, 2) }
      (by decide) rfl⟩

/-! ## `HudhudStreetsService._loadTileAsync` (src/unnamed/part_005)

The photo cache and the observable effects of one tile fetch.  A settled
fetch promise either fulfilled with page items, or rejected with an error
whose `name` distinguishes `'AbortError'` from other failures. -/

/-- One image record from the `nearby-photos` response. -/
structure StreetsImage where
  id : String
  lng : Int
  lat : Int
deriving Repr, DecidableEq, Inhabited

/-- One rtree entry: a degenerate box at the image's coordinates. -/
structure ImageBox where
  minX : Int
  minY : Int
  maxX : Int
  maxY : Int
  data : StreetsImage
deriving Repr, DecidableEq, Inhabited

/-- `this._cache`: the rtree, the inflight tile set, the loaded tile set and
the image map. -/
structure StreetsCache where
  rtree : List ImageBox := []
  inflight : List String := []
  loaded : List String := []
  images : List (String × StreetsImage) := []
deriving Repr, DecidableEq, Inhabited

/-- The service state observable from outside: the cache plus the emitted
events, requested redraws and logged errors. -/
structure StreetsState where
  cache : StreetsCache := ⟨[], [], [], []⟩
  events : List String := []
  redraws : Nat := 0
  errors : List String := []
deriving Repr, DecidableEq, Inhabited

/-- How a tile fetch settled. -/
inductive FetchOutcome
  | fulfilled (items : List StreetsImage)
  | rejected (errName : String)
deriving Repr, DecidableEq, Inhabited

/-- `Map.set` on the image map. -/
def insertImage : List (String × StreetsImage) → StreetsImage →
    List (String × StreetsImage)
  | [], img => [(img.id, img)]
  | (k, v) :: rest, img =>
      if k = img.id then (k, img) :: rest else (k, v) :: insertImage rest img

/-- The start of `_loadTileAsync`: skip tiles already loaded or inflight,
otherwise record the tile as inflight. -/
def loadTileStart (st : StreetsState) (tileID : String) : StreetsState :=
  if st.cache.loaded.contains tileID || st.cache.inflight.contains tileID then st
  else { st with cache :=
    { st.cache with inflight := st.cache.inflight ++ [tileID] } }

/-- The continuation of `_loadTileAsync` once the fetch settles: on
fulfillment mark the tile loaded, insert every image into the image map and
the rtree, request a redraw and emit `'loadedData'`; on rejection, an
`'AbortError'` returns immediately while any other error is logged; the
`finally` clause always deletes the tile's inflight entry. -/
def loadTileSettle (st : StreetsState) (tileID : String)
    (out : FetchOutcome) : StreetsState :=
  let settled :=
    match out with
    | FetchOutcome.fulfilled items =>
        { st with
            cache := { st.cache with
              loaded := st.cache.loaded ++ [tileID],
              images := items.foldl insertImage st.cache.images,
              rtree := st.cache.rtree ++ items.map (fun (img : StreetsImage) =>
                ({ minX := img.lng, minY := img.lat,
                   maxX := img.lng, maxY := img.lat, data := img } : ImageBox)) },
            redraws := st.redraws + 1,
            events := st.events ++ ["loadedData"] }
    | FetchOutcome.rejected errName =>
        if errName = "AbortError" then st
        else { st with errors := st.errors ++ [errName] }
  { settled with cache :=
    { settled.cache with inflight := settled.cache.inflight.erase tileID } }

/-- C7: an aborted tile fetch is a no-op on the photo cache: the tile is not
marked loaded, no image is inserted into the image map or the rtree, no
`'loadedData'` event is emitted, no redraw is requested, nothing is logged —
the only state change is the removal of the tile's inflight entry. -/
theorem aborted_fetch_noop (st : StreetsState) (tileID : String) :
    loadTileSettle st tileID (FetchOutcome.rejected "AbortError") =
      { st with cache :=
        { st.cache with inflight := st.cache.inflight.erase tileID } } := by
  simp [loadTileSettle]
